import Mathlib

/-!
Formal model of `pyseer_to_phandango_plot.py`.

The script converts a Pyseer GWAS table into a Phandango `.plot` track file.
We embed the program shallowly: the tab-separated input file is a `String`,
the command-line configuration is a `Config` record, failure via
`SystemExit` is modelled with `Except String`, and the mutable loop state
(`out_rows`, `bad_bp`, `bad_p`) is threaded explicitly through `step`.

Modelling notes for the Python builtins used by the script:
* `int(s)` is modelled by `pyParseInt` (optional sign followed by decimal
  digits; the rarely used whitespace stripping and digit-group underscores
  of Python are not modelled, no property here depends on them).
* `float(s)` is modelled by `pyParseFloat`: surrounding whitespace is
  stripped, digit-group underscores are validated and removed, the
  case-insensitive tokens `inf`, `infinity` and `nan` parse to the
  corresponding special values, and a decimal literal with optional sign,
  fraction and exponent parses to its exact fractional value.  The
  program only ever branches on the comparison `p <= 0.0`, and
  `PyFloat.le_zero` reproduces that comparison on IEEE doubles exactly:
  rounding preserves the sign, and the one rounding effect that crosses
  the comparison — a positive magnitude underflowing to `0.0`, as for
  `float("1e-400")` — is decided by the exact threshold `2 ^ (-1075)`.
  The rounded magnitude of a positive finite value is not modelled; it
  only reaches the rendering of the transformed value, which no claim
  constrains.
* `str(x)` on the transformed value is modelled by `NegLog.render`:
  `float("inf")` prints as the token `inf`; the decimal rendering of a
  finite `-math.log10(p)` is irrational in general, so it is modelled as a
  deterministic tag of the parsed value `p`.  No claim constrains that
  finite rendering beyond the fourth and fifth output fields being
  equal.
* `list[i]` with a possibly negative index is modelled by `pyGet`.
-/

namespace PyseerPhandango

/-- Numeric value of a decimal digit character, if it is one. -/
def digitVal (c : Char) : Option Nat :=
  if c.isDigit then some (c.toNat - 48) else none

/-- Accumulating decimal parser over characters; fails at the first
non-digit character. -/
def parseDigitsAux (acc : Nat) : List Char → Option Nat
  | [] => some acc
  | c :: cs =>
    match digitVal c with
    | some d => parseDigitsAux (10 * acc + d) cs
    | none => none

/-- Parse a nonempty all-digit character list as a natural number. -/
def parseDigits : List Char → Option Nat
  | [] => none
  | c :: cs => parseDigitsAux 0 (c :: cs)

/-- Fuel-driven worker for `natDigits`; structural recursion on the fuel
keeps the definition reducible inside proofs. -/
def natDigitsFuel : Nat → Nat → List Char
  | 0, _ => []
  | fuel + 1, n =>
    if n < 10 then [Char.ofNat (48 + n)]
    else natDigitsFuel fuel (n / 10) ++ [Char.ofNat (48 + n % 10)]

/-- Decimal digits of a natural number, most significant first. -/
def natDigits (n : Nat) : List Char := natDigitsFuel (n + 1) n

/-- Decimal rendering of a natural number. -/
def natRepr (n : Nat) : String := String.mk (natDigits n)

/-- Model of Python `str` on an `int`: minimal decimal form with a leading
minus sign for negative values. -/
def pyIntRepr (z : Int) : String :=
  if z < 0 then "-" ++ natRepr z.natAbs else natRepr z.toNat

/-- Model of Python `int(s)`: optional sign followed by decimal digits. -/
def pyParseInt (s : String) : Option Int :=
  match s.data with
  | [] => none
  | c :: rest =>
    if c = '-' then (parseDigits rest).map (fun n => -(n : Int))
    else if c = '+' then (parseDigits rest).map (fun n => (n : Int))
    else (parseDigits (c :: rest)).map (fun n => (n : Int))

/-- Split a leading sign character off a character list; `true` means the
value is negated. -/
def splitSign : List Char → Bool × List Char
  | '-' :: r => (true, r)
  | '+' :: r => (false, r)
  | r => (false, r)

/-- Value of an all-digit character list (`0` when empty). -/
def digitsToNat (cs : List Char) : Nat :=
  cs.foldl (fun a c => 10 * a + (c.toNat - 48)) 0

/-- The whitespace characters Python strips around a numeric literal
(space, tab, newline, carriage return, vertical tab, form feed). -/
def pyIsSpace (c : Char) : Bool :=
  c = ' ' ∨ c = '\t' ∨ c = '\n' ∨ c = '\r' ∨ c.toNat = 11 ∨ c.toNat = 12

/-- Strip leading and trailing whitespace from a character list. -/
def stripWs (cs : List Char) : List Char :=
  ((cs.dropWhile pyIsSpace).reverse.dropWhile pyIsSpace).reverse

/-- Validate and remove the digit-group underscores Python allows inside
numeric literals: every underscore must sit directly between two
digits. -/
def deUnderscoreAux (prev : Char) : List Char → Option (List Char)
  | [] => some []
  | ['_'] => none
  | '_' :: d :: rest2 =>
    if prev.isDigit ∧ d.isDigit then (deUnderscoreAux d rest2).map (fun l => d :: l)
    else none
  | c :: rest => (deUnderscoreAux c rest).map (fun l => c :: l)

/-- Entry point of the underscore pass; a leading underscore is always
invalid. -/
def deUnderscore : List Char → Option (List Char)
  | [] => some []
  | '_' :: _ => none
  | c :: rest => (deUnderscoreAux c rest).map (fun l => c :: l)

/-- The value Python `float()` produces, as the program observes it: a
NaN, a signed infinity, or a finite value kept as the exact unreduced
fraction written in the literal (a signed numerator over a positive
power-of-ten denominator).  Keeping the magnitude exact instead of
rounding it to an IEEE double is sound for every branch the program
takes: rounding preserves the sign, so the comparison `p <= 0.0` can
differ from the exact one only when a positive magnitude underflows to
zero, and `PyFloat.le_zero` decides that underflow exactly.  The rounded
magnitude itself only reaches the decimal rendering of the transformed
value, which no claim constrains. -/
inductive PyFloat where
  | nan : PyFloat
  | inf (neg : Bool) : PyFloat
  | num (n : Int) (den : Nat) : PyFloat
deriving DecidableEq, Repr

/-- The reciprocal of the underflow threshold `2 ^ (-1075)`, written as a
decimal literal so it evaluates without unary exponent recursion; the
theorem `underflowBound_eq` certifies the value. -/
def underflowBound : Nat :=
  404804506614621236704990693437834614099113299528284236713802716054860679135990693783920767402874248990374155728633623822779617474771586953734026799881477019843034848553132722728933815484186432682479535356945490137124014966849385397236206711298319112681620113024717539104666829230461005064372655017292012526615415482186989568

theorem underflowBound_eq : underflowBound = 2 ^ 1075 := by norm_num [underflowBound]

/-- Model of the Python comparison `p <= 0.0` on a parsed float: false
for NaN, the sign for an infinity, and for a finite literal true exactly
when the value is at most zero or its magnitude underflows to zero — an
IEEE double rounds a positive magnitude to `0.0` exactly when it is at
most `2 ^ (-1075)`, half the smallest subnormal (ties-to-even), so
`float("1e-400")` is `0.0` and takes this branch while `float("5e-324")`
does not. -/
def PyFloat.le_zero : PyFloat → Bool
  | .nan => false
  | .inf neg => neg
  | .num n den => decide (n ≤ 0) || decide (n.natAbs * underflowBound ≤ den)

/-- A deterministic printable tag for a parsed float; the exact IEEE
decimal rendering of a finite value is not representable here and no
claim constrains it. -/
def PyFloat.tag : PyFloat → String
  | .nan => "nan"
  | .inf neg => if neg then "-inf" else "inf"
  | .num n den => pyIntRepr n ++ "/" ++ natRepr den

/-- Powers of ten. -/
def pow10 (e : Nat) : Nat := 10 ^ e

/-- Apply the optional exponent part of a float literal to the unsigned
mantissa, an exact fraction numerator-over-denominator. -/
def applyExp (m : Nat × Nat) : List Char → Option (Nat × Nat)
  | [] => some m
  | c :: rest =>
    if c = 'e' ∨ c = 'E' then
      let sgn := splitSign rest
      let ds := sgn.2.takeWhile Char.isDigit
      let tail := sgn.2.dropWhile Char.isDigit
      if ds = [] ∨ tail ≠ [] then none
      else some (if sgn.1 then (m.1, m.2 * pow10 (digitsToNat ds))
                 else (m.1 * pow10 (digitsToNat ds), m.2))
    else none

/-- Parse the unsigned mantissa (`D+`, `D+.D*` or `.D+`) of a float
literal, returning its exact value and the unconsumed characters. -/
def parseMantissa (cs : List Char) : Option ((Nat × Nat) × List Char) :=
  let ip := cs.takeWhile Char.isDigit
  let rest := cs.dropWhile Char.isDigit
  match rest with
  | '.' :: rest2 =>
    let fp := rest2.takeWhile Char.isDigit
    let rest3 := rest2.dropWhile Char.isDigit
    if ip = [] ∧ fp = [] then none
    else some ((digitsToNat ip * pow10 fp.length + digitsToNat fp, pow10 fp.length),
      rest3)
  | _ => if ip = [] then none else some ((digitsToNat ip, 1), rest)

/-- Model of Python `float(s)`: strip surrounding whitespace, validate
and drop digit-group underscores, accept the case-insensitive special
tokens `inf`, `infinity` and `nan` after an optional sign, and otherwise
parse a decimal literal with optional sign, fraction and exponent into
an exact fraction.  (The non-ASCII digits and whitespace CPython also
accepts are not modelled; no claim involves them.) -/
def pyParseFloat (s : String) : Option PyFloat :=
  match deUnderscore (stripWs s.data) with
  | none => none
  | some cs =>
    let sgn := splitSign cs
    let low := sgn.2.map Char.toLower
    if low = ['i', 'n', 'f'] ∨ low = ['i', 'n', 'f', 'i', 'n', 'i', 't', 'y'] then
      some (.inf sgn.1)
    else if low = ['n', 'a', 'n'] then some PyFloat.nan
    else
      match parseMantissa sgn.2 with
      | none => none
      | some mr =>
        match applyExp mr.1 mr.2 with
        | none => none
        | some q =>
          some (.num (if sgn.1 then -(q.1 : Int) else (q.1 : Int)) q.2)

/-- Model of Python list indexing `l[i]` with negative indices counting
from the end; `none` models `IndexError`. -/
def pyGet (l : List String) (i : Int) : Option String :=
  if 0 ≤ i then l.get? i.toNat
  else if i.natAbs ≤ l.length then l.get? (l.length - i.natAbs) else none

/-- Fuel-driven worker for `pySplit`; the fuel bounds the characters
still to be consumed, so the recursion is structural and reducible. -/
def pySplitFuel (sep : List Char) : Nat → List Char → List Char → List (List Char)
  | 0, s, acc => [acc.reverse ++ s]
  | fuel + 1, s, acc =>
    match s with
    | [] => [acc.reverse]
    | c :: rest =>
      if sep.isPrefixOf (c :: rest) then
        acc.reverse :: pySplitFuel sep fuel ((c :: rest).drop sep.length) []
      else pySplitFuel sep fuel rest (c :: acc)

/-- Model of Python `s.split(sep)` with a nonempty separator: split on
every occurrence, never collapsing, so `"".split(sep) = [""]`.  The
degenerate empty separator (a `ValueError` in Python, guarded before
every use) is mapped to the whole string. -/
def pySplit (s sep : String) : List String :=
  if sep.data = [] then [s]
  else (pySplitFuel sep.data s.data.length s.data []).map String.mk

/-- Model of Python `str.lower()` on ASCII text. -/
def pyLower (s : String) : String := String.mk (s.data.map Char.toLower)

/-- Model of Python substring membership `pat in s`. -/
def strContainsSub (s pat : String) : Bool :=
  (List.range (s.data.length + 1)).any (fun i => pat.data.isPrefixOf (s.data.drop i))

/-- Last element of a list satisfying `p`, mirroring how a later entry of a
Python dict comprehension overwrites an earlier one with the same key. -/
def lastSuch (p : String → Bool) : List String → Option String
  | [] => none
  | h :: t =>
    match lastSuch p t with
    | some x => some x
    | none => if p h then some h else none

/-- Index of the last occurrence of `name` in the remaining list, offset by
`i`; mirrors the `col_index` dict whose later entries overwrite earlier
ones. -/
def lastIndexOfFrom (name : String) : List String → Nat → Option Nat
  | [], _ => none
  | h :: t, i =>
    match lastIndexOfFrom name t (i + 1) with
    | some j => some j
    | none => if h = name then some i else none

/-- `col_index[name]`: index of the last occurrence of `name` in the
header row. -/
def lastIndexOf (header : List String) (name : String) : Option Nat :=
  lastIndexOfFrom name header 0

/-- `[ln.rstrip("\n") for ln in f if ln.strip()]`: the physical lines of
the file with blank (all-whitespace) lines removed. -/
def readLines (content : String) : List String :=
  (pySplit content "\n").filter (fun ln => ln.data.any (fun c => !c.isWhitespace))

/-- The fixed Phandango header line. -/
def DEFAULT_HEADER : String := "#CHR\tSNP\tBP\tminLOG10(P)\tlog10(p)\tr^2"

/-- The command-line configuration, with the argparse defaults. -/
structure Config where
  chr_index : String := "26"
  variant_col : String := "variant"
  pcol : Option String := none
  variant_delim : String := "_"
  bp_field_index : Int := 1
  snp_name : String := "."
  r2 : String := "0"
  skip_nonpositive_p : Bool := false
  allow_missing_bp : Bool := false
deriving DecidableEq, Repr

/-- The configuration obtained by passing only the two required paths. -/
def defaultConfig : Config := {}

/-- The ordered candidate list of `detect_pcol`. -/
def candidates : List String :=
  ["lrt-pvalue", "pvalue", "p-value", "pval", "wald-pvalue", "score-pvalue", "filter-pvalue"]

/-- Lookup in the dict `{h.lower(): h for h in header}`: the last header
entry whose lower-casing equals `c`. -/
def lowerLookup (header : List String) (c : String) : Option String :=
  lastSuch (fun h => pyLower h == c) header

/-- The fallback heuristic of `detect_pcol`:
`"pvalue" in h.lower() or h.lower() in ("p", "pval")`. -/
def fallbackHit (h : String) : Bool :=
  strContainsSub (pyLower h) "pvalue" || pyLower h == "p" || pyLower h == "pval"

/-- `detect_pcol`: first candidate present in the lower-cased header dict,
then the fallback scan over the header in order. -/
def detect_pcol (header : List String) : Option String :=
  match candidates.findSome? (fun c => lowerLookup header c) with
  | some h => some h
  | none => header.find? fallbackHit

/-- The transformed p-value as the script holds it before printing:
`float("inf")` or the exact `-log10` of a positive rational. -/
inductive NegLog where
  | inf : NegLog
  | val (p : PyFloat) : NegLog
deriving DecidableEq, Repr

/-- Model of `str` on the transformed value: infinity prints as `inf`; a
finite `-log10 p` is rendered as a deterministic tag of `p` (its exact
decimal expansion is not expressible and no claim depends on it). -/
def NegLog.render : NegLog → String
  | .inf => "inf"
  | .val p => "-log10(" ++ p.tag ++ ")"

/-- `safe_neglog10`: guard against non-positive input, else `-log10 p`. -/
def safe_neglog10 (p : PyFloat) : NegLog :=
  if p.le_zero then .inf else .val p

/-- The mutable state of the main loop: accumulated output lines (the
fixed header first) and the two per-run counters. -/
structure St where
  out_rows : List String
  bad_bp : Nat
  bad_p : Nat
deriving DecidableEq, Repr

/-- The initial loop state: `out_rows = [DEFAULT_HEADER]`, zero counters. -/
def initSt : St := ⟨[DEFAULT_HEADER], 0, 0⟩

/-- One emitted output line:
`"\t".join([chr_index, snp_name, str(bp_int), str(neglog), str(neglog), r2])`. -/
def outLine (cfg : Config) (bp_int : Int) (neglog : NegLog) : String :=
  String.intercalate "\t"
    [cfg.chr_index, cfg.snp_name, pyIntRepr bp_int, neglog.render, neglog.render, cfg.r2]

/-- One iteration of the row loop of `main` (lines 164-230 of the script).
`SystemExit` is an `Except.error`; `continue` returns the state with only
a counter possibly changed. -/
def step (cfg : Config) (var_i p_i : Nat) (st : St) (ln : String) : Except String St :=
  let parts := pySplit ln "\t"
  if parts.length ≤ max var_i p_i then .ok st
  else
    let variant := parts.getD var_i ""
    let p_str := parts.getD p_i ""
    if cfg.variant_delim = "" then .error "ValueError: empty separator"
    else
      let fields := pySplit variant cfg.variant_delim
      match pyGet fields cfg.bp_field_index with
      | none =>
        if cfg.allow_missing_bp then .ok { st with bad_bp := st.bad_bp + 1 }
        else .error "[ERROR] Could not parse BP: missing field index"
      | some bp =>
        match pyParseInt bp with
        | none =>
          if cfg.allow_missing_bp then .ok { st with bad_bp := st.bad_bp + 1 }
          else .error "[ERROR] BP field is not an integer"
        | some bp_int =>
          match pyParseFloat p_str with
          | none =>
            if cfg.skip_nonpositive_p then .ok { st with bad_p := st.bad_p + 1 }
            else .error "[ERROR] P-value is not numeric"
          | some p_val =>
            if p_val.le_zero then
              if cfg.skip_nonpositive_p then .ok { st with bad_p := st.bad_p + 1 }
              else .ok { st with bad_p := st.bad_p + 1,
                                 out_rows := st.out_rows ++ [outLine cfg bp_int NegLog.inf] }
            else .ok { st with out_rows := st.out_rows ++ [outLine cfg bp_int (safe_neglog10 p_val)] }

/-- The row loop over all data lines, stopping at the first `SystemExit`. -/
def processRows (cfg : Config) (var_i p_i : Nat) (st : St) : List String → Except String St
  | [] => .ok st
  | ln :: rest =>
    match step cfg var_i p_i st ln with
    | .error e => .error e
    | .ok st2 => processRows cfg var_i p_i st2 rest

/-- Resolution of the p-value column to an index: the explicit `--pcol`
name if given, else `detect_pcol`; then the single check
`pcol is None or pcol not in col_index`. -/
def resolvePcolIdx (cfg : Config) (header : List String) : Option Nat :=
  match (match cfg.pcol with | some s => some s | none => detect_pcol header) with
  | none => none
  | some pcol => lastIndexOf header pcol

/-- The whole run of `main` on the content of the input file: the returned
state holds the output lines and both counters; `.error` models a
`SystemExit` with a non-zero exit status. -/
def main (cfg : Config) (content : String) : Except String St :=
  match readLines content with
  | [] => .error "[ERROR] Input file is empty"
  | headerLine :: dataLines =>
    let header := pySplit headerLine "\t"
    match lastIndexOf header cfg.variant_col with
    | none => .error ("[ERROR] Variant column not found: " ++ cfg.variant_col)
    | some var_i =>
      match resolvePcolIdx cfg header with
      | none => .error "[ERROR] Could not determine p-value column"
      | some p_i => processRows cfg var_i p_i initSt dataLines

/-- `"\n".join(out_rows) + "\n"`: the bytes written to the output file. -/
def renderFile (rows : List String) : String :=
  String.intercalate "\n" rows ++ "\n"

/-- The output file produced by a run, if any: the file is opened and
written only after the whole row loop has finished, so an aborted run
writes nothing. -/
def writtenFile (res : Except String St) : Option String :=
  match res with
  | .ok r => some (renderFile r.out_rows)
  | .error _ => none

/-- The warning printed when `bad_bp` is nonzero. -/
def warnBpMsg : String := "[WARN] Skipped or failed BP parsing for some rows."

/-- The warning printed when `bad_p` is nonzero. -/
def warnPMsg : String := "[WARN] Encountered non-positive or non-numeric p for some rows."

/-- The warning lines a successful run prints to stderr. -/
def stderrWarnings (r : St) : List String :=
  (if r.bad_bp ≠ 0 then [warnBpMsg] else []) ++ (if r.bad_p ≠ 0 then [warnPMsg] else [])

/-- What the loop does with one data row: emit an output line (with a
positive p-value, or with a non-positive one counted in `bad_p`), skip it
(silently for a short row, counted for a position or p-value problem), or
abort the run. -/
inductive RowFate where
  | emit : RowFate
  | emitNonpos : RowFate
  | skipShort : RowFate
  | skipBp : RowFate
  | skipP : RowFate
  | fatal : RowFate
deriving DecidableEq, Repr

/-- Classify a data row; this mirrors the branch structure of `step`. -/
def rowFate (cfg : Config) (var_i p_i : Nat) (ln : String) : RowFate :=
  let parts := pySplit ln "\t"
  if parts.length ≤ max var_i p_i then .skipShort
  else
    let variant := parts.getD var_i ""
    let p_str := parts.getD p_i ""
    if cfg.variant_delim = "" then .fatal
    else
      let fields := pySplit variant cfg.variant_delim
      match pyGet fields cfg.bp_field_index with
      | none => if cfg.allow_missing_bp then .skipBp else .fatal
      | some bp =>
        match pyParseInt bp with
        | none => if cfg.allow_missing_bp then .skipBp else .fatal
        | some _ =>
          match pyParseFloat p_str with
          | none => if cfg.skip_nonpositive_p then .skipP else .fatal
          | some p_val =>
            if p_val.le_zero then
              if cfg.skip_nonpositive_p then .skipP else .emitNonpos
            else .emit

/-- Fates on which the row is dropped without aborting. -/
def RowFate.isSkip : RowFate → Bool
  | .skipShort => true
  | .skipBp => true
  | .skipP => true
  | _ => false

/-- Fates on which an output line is emitted. -/
def RowFate.isEmit : RowFate → Bool
  | .emit => true
  | .emitNonpos => true
  | _ => false

/-- Fates on which the `bad_p` counter is incremented. -/
def RowFate.isPCount : RowFate → Bool
  | .skipP => true
  | .emitNonpos => true
  | _ => false

/-- Fates on which the `bad_bp` counter is incremented (on a run that
completes, these are exactly the position skips). -/
def RowFate.isBpCount : RowFate → Bool
  | .skipBp => true
  | _ => false

end PyseerPhandango

namespace PyseerPhandango

/-! ### Lemmas about the decimal rendering and parsing of integers -/

theorem data_append (s t : String) : (s ++ t).data = s.data ++ t.data := by
  cases s; cases t; rfl

theorem digitVal_ofNat (d : Nat) (h : d < 10) :
    digitVal (Char.ofNat (48 + d)) = some d := by
  interval_cases d <;> decide

theorem parseDigitsAux_append (acc : Nat) (xs ys : List Char) :
    parseDigitsAux acc (xs ++ ys) =
      (parseDigitsAux acc xs).bind (fun m => parseDigitsAux m ys) := by
  induction xs generalizing acc with
  | nil => simp [parseDigitsAux]
  | cons c cs ih =>
    simp only [List.cons_append, parseDigitsAux]
    cases h : digitVal c with
    | none => simp
    | some d => simp [ih]

theorem natDigitsFuel_congr :
    ∀ f1 n f2, n < f1 → n < f2 → natDigitsFuel f1 n = natDigitsFuel f2 n := by
  intro f1
  induction f1 with
  | zero => intro n f2 h1 _; exact absurd h1 (Nat.not_lt_zero n)
  | succ f ih =>
    intro n f2 h1 h2
    cases f2 with
    | zero => exact absurd h2 (Nat.not_lt_zero n)
    | succ g =>
      show (if n < 10 then [Char.ofNat (48 + n)]
        else natDigitsFuel f (n / 10) ++ [Char.ofNat (48 + n % 10)]) =
        (if n < 10 then [Char.ofNat (48 + n)]
        else natDigitsFuel g (n / 10) ++ [Char.ofNat (48 + n % 10)])
      by_cases hn : n < 10
      · rw [if_pos hn, if_pos hn]
      · rw [if_neg hn, if_neg hn, ih (n / 10) g (by omega) (by omega)]

theorem natDigits_step (n : Nat) :
    natDigits n = if n < 10 then [Char.ofNat (48 + n)]
      else natDigits (n / 10) ++ [Char.ofNat (48 + n % 10)] := by
  show (if n < 10 then [Char.ofNat (48 + n)]
    else natDigitsFuel n (n / 10) ++ [Char.ofNat (48 + n % 10)]) = _
  by_cases hn : n < 10
  · rw [if_pos hn, if_pos hn]
  · rw [if_neg hn, if_neg hn,
      natDigitsFuel_congr n (n / 10) (n / 10 + 1) (by omega) (by omega)]
    rfl

theorem natDigits_ne_nil (n : Nat) : natDigits n ≠ [] := by
  rw [natDigits_step]
  split
  · simp
  · simp

theorem natDigits_head_digit (n : Nat) :
    ∀ c cs, natDigits n = c :: cs → c.isDigit = true := by
  induction n using Nat.strong_induction_on with
  | _ n ih =>
    intro c cs h
    rw [natDigits_step] at h
    split at h
    · next hlt =>
      injection h with h1 h2
      subst h1
      interval_cases n <;> decide
    · next hge =>
      obtain ⟨d, ds, hd⟩ : ∃ d ds, natDigits (n / 10) = d :: ds := by
        cases hnd : natDigits (n / 10) with
        | nil => exact absurd hnd (natDigits_ne_nil _)
        | cons d ds => exact ⟨d, ds, rfl⟩
      rw [hd] at h
      simp only [List.cons_append] at h
      injection h with h1 h2
      subst h1
      exact ih (n / 10) (by omega) _ _ hd

theorem parseDigitsAux_natDigits (n : Nat) :
    ∀ acc, parseDigitsAux acc (natDigits n) =
      some (acc * 10 ^ (natDigits n).length + n) := by
  induction n using Nat.strong_induction_on with
  | _ n ih =>
    intro acc
    rw [natDigits_step]
    split
    · next hlt =>
      simp [parseDigitsAux, digitVal_ofNat n hlt]
      omega
    · next hge =>
      rw [parseDigitsAux_append, ih (n / 10) (by omega)]
      simp only [Option.some_bind, parseDigitsAux, digitVal_ofNat (n % 10) (by omega : n % 10 < 10)]
      have hlen : (natDigits (n / 10) ++ [Char.ofNat (48 + n % 10)]).length
          = (natDigits (n / 10)).length + 1 := by simp
      rw [hlen]
      have hsplit : 10 * (acc * 10 ^ (natDigits (n / 10)).length + n / 10) + n % 10
          = acc * 10 ^ ((natDigits (n / 10)).length + 1) + (10 * (n / 10) + n % 10) := by
        ring
      rw [hsplit]
      have hmod : 10 * (n / 10) + n % 10 = n := by omega
      rw [hmod]

theorem parseDigits_natDigits (n : Nat) : parseDigits (natDigits n) = some n := by
  obtain ⟨c, cs, h⟩ : ∃ c cs, natDigits n = c :: cs := by
    cases hnd : natDigits n with
    | nil => exact absurd hnd (natDigits_ne_nil _)
    | cons c cs => exact ⟨c, cs, rfl⟩
  rw [h]
  show parseDigitsAux 0 (c :: cs) = some n
  rw [← h, parseDigitsAux_natDigits]
  simp

theorem natRepr_data (n : Nat) : (natRepr n).data = natDigits n := rfl

theorem pyParseInt_data (s : String) (c : Char) (rest : List Char)
    (hs : s.data = c :: rest) :
    pyParseInt s =
      if c = '-' then (parseDigits rest).map (fun n => -(n : Int))
      else if c = '+' then (parseDigits rest).map (fun n => (n : Int))
      else (parseDigits (c :: rest)).map (fun n => (n : Int)) := by
  unfold pyParseInt
  rw [hs]

theorem pyParseInt_pyIntRepr (z : Int) : pyParseInt (pyIntRepr z) = some z := by
  obtain ⟨c, cs, h⟩ : ∃ c cs, natDigits z.natAbs = c :: cs := by
    cases hnd : natDigits z.natAbs with
    | nil => exact absurd hnd (natDigits_ne_nil _)
    | cons c cs => exact ⟨c, cs, rfl⟩
  have hdig : c.isDigit = true := natDigits_head_digit _ _ _ h
  have hcm : ¬ c = '-' := by intro hc; rw [hc] at hdig; exact absurd hdig (by decide)
  have hcp : ¬ c = '+' := by intro hc; rw [hc] at hdig; exact absurd hdig (by decide)
  by_cases hneg : z < 0
  · have hrepr : pyIntRepr z = "-" ++ natRepr z.natAbs := by
      unfold pyIntRepr; rw [if_pos hneg]
    have hd : ("-" ++ natRepr z.natAbs).data = '-' :: natDigits z.natAbs := by
      rw [data_append]; rfl
    rw [hrepr, pyParseInt_data _ _ _ hd, if_pos rfl, parseDigits_natDigits]
    show some (-(z.natAbs : Int)) = some z
    rw [Option.some.injEq]
    omega
  · have hz : z.natAbs = z.toNat := by omega
    have hrepr : pyIntRepr z = natRepr z.toNat := by
      unfold pyIntRepr; rw [if_neg hneg]
    rw [hz] at h
    have hd : (natRepr z.toNat).data = c :: cs := by rw [natRepr_data, h]
    rw [hrepr, pyParseInt_data _ _ _ hd, if_neg hcm, if_neg hcp, ← h,
      parseDigits_natDigits]
    show some ((z.toNat : Int)) = some z
    rw [Option.some.injEq]
    omega

end PyseerPhandango

namespace PyseerPhandango

/-! ### Lemmas about the header lookup structures -/

theorem lastSuch_eq_filter (p : String → Bool) (l : List String) :
    lastSuch p l = (l.filter p).getLast? := by
  induction l with
  | nil => rfl
  | cons h t ih =>
    rw [lastSuch, ih, List.filter_cons]
    cases hf : (t.filter p).getLast? with
    | some x =>
      show some x = (if p h = true then h :: t.filter p else t.filter p).getLast?
      have hne : t.filter p ≠ [] := by
        intro hnil
        rw [hnil] at hf
        cases hf
      obtain ⟨y, ys, hy⟩ := List.exists_cons_of_ne_nil hne
      by_cases hp : p h = true
      · rw [if_pos hp, hy, List.getLast?_cons_cons, ← hy, hf]
      · rw [if_neg hp, hf]
    | none =>
      show (if p h = true then some h else none)
          = (if p h = true then h :: t.filter p else t.filter p).getLast?
      have hnil : t.filter p = [] := List.getLast?_eq_none_iff.mp hf
      by_cases hp : p h = true
      · rw [if_pos hp, if_pos hp, hnil]
        rfl
      · rw [if_neg hp, if_neg hp, hf]

theorem lastSuch_mem (p : String → Bool) :
    ∀ (l : List String) (x : String), lastSuch p l = some x → x ∈ l ∧ p x = true := by
  intro l
  induction l with
  | nil => intro x hx; cases hx
  | cons h t ih =>
    intro x hx
    rw [lastSuch] at hx
    cases hl : lastSuch p t with
    | some y =>
      rw [hl] at hx
      have hyx : some y = some x := hx
      obtain ⟨hmem, hpy⟩ := ih y hl
      rw [Option.some.injEq] at hyx
      subst hyx
      exact ⟨List.mem_cons_of_mem _ hmem, hpy⟩
    | none =>
      rw [hl] at hx
      have hx2 : (if p h = true then some h else none) = some x := hx
      by_cases hp : p h = true
      · rw [if_pos hp, Option.some.injEq] at hx2
        subst hx2
        exact ⟨List.mem_cons_self _ _, hp⟩
      · rw [if_neg hp] at hx2
        cases hx2

theorem lastSuch_eq_none (p : String → Bool) (l : List String) :
    lastSuch p l = none ↔ ∀ x ∈ l, ¬ p x = true := by
  rw [lastSuch_eq_filter, List.getLast?_eq_none_iff, List.filter_eq_nil_iff]

theorem lowerLookup_eq_none (header : List String) (c : String) :
    lowerLookup header c = none ↔ header.any (fun h => pyLower h == c) = false := by
  rw [lowerLookup, lastSuch_eq_none]
  constructor
  · intro hall
    rw [← Bool.not_eq_true, List.any_eq_true]
    rintro ⟨x, hx, hpx⟩
    exact hall x hx hpx
  · intro hany x hx hpx
    rw [← Bool.not_eq_true, List.any_eq_true] at hany
    exact hany ⟨x, hx, hpx⟩

theorem findSome?_lowerLookup (header : List String) (cs : List String) :
    cs.findSome? (fun c => lowerLookup header c) =
      match cs.find? (fun c => header.any (fun h => pyLower h == c)) with
      | some c => lowerLookup header c
      | none => none := by
  induction cs with
  | nil => rfl
  | cons c cs ih =>
    rw [List.findSome?_cons, List.find?_cons]
    by_cases hc : header.any (fun h => pyLower h == c) = true
    · rw [hc]
      cases hl : lowerLookup header c with
      | some x =>
        show some x = lowerLookup header c
        exact hl.symm
      | none =>
        have hf := (lowerLookup_eq_none header c).mp hl
        rw [hf] at hc
        cases hc
    · have hcf : header.any (fun h => pyLower h == c) = false := by
        cases hb : header.any (fun h => pyLower h == c) with
        | true => exact absurd hb hc
        | false => rfl
      rw [hcf, (lowerLookup_eq_none header c).mpr hcf]
      exact ih

/-- When some candidate has a case-insensitive match in the header, the
detection returns a header entry lower-casing to the first such
candidate. -/
theorem detect_pcol_candidate (header : List String) (c : String)
    (hfind : candidates.find? (fun cand => header.any (fun h => pyLower h == cand)) = some c) :
    ∃ h, detect_pcol header = some h ∧ h ∈ header ∧ pyLower h = c := by
  have hd : detect_pcol header =
      (match lowerLookup header c with
       | some h => some h
       | none => header.find? fallbackHit) := by
    rw [detect_pcol, findSome?_lowerLookup, hfind]
  have hany : header.any (fun h => pyLower h == c) = true := by
    simpa using List.find?_some hfind
  cases hl : lowerLookup header c with
  | none =>
    have hf := (lowerLookup_eq_none header c).mp hl
    rw [hf] at hany
    cases hany
  | some x =>
    rw [hl] at hd
    have hdx : detect_pcol header = some x := hd
    obtain ⟨hmem, hpx⟩ := lastSuch_mem _ header x hl
    exact ⟨x, hdx, hmem, eq_of_beq hpx⟩

/-- When no candidate matches, the detection falls back to the first
header entry satisfying the substring heuristic. -/
theorem detect_pcol_fallback (header : List String)
    (hfind : candidates.find? (fun cand => header.any (fun h => pyLower h == cand)) = none) :
    detect_pcol header = header.find? fallbackHit := by
  rw [detect_pcol, findSome?_lowerLookup, hfind]

/-- The candidate stage returns the LAST header entry lower-casing to the
matched candidate (later dict entries overwrite earlier ones). -/
theorem detect_pcol_candidate_last (header : List String) (c : String)
    (hfind : candidates.find? (fun cand => header.any (fun h => pyLower h == cand)) = some c) :
    detect_pcol header = (header.filter (fun h => pyLower h == c)).getLast? := by
  have hd : detect_pcol header =
      (match lowerLookup header c with
       | some h => some h
       | none => header.find? fallbackHit) := by
    rw [detect_pcol, findSome?_lowerLookup, hfind]
  have hany : header.any (fun h => pyLower h == c) = true := by
    simpa using List.find?_some hfind
  cases hl : lowerLookup header c with
  | none =>
    have hf := (lowerLookup_eq_none header c).mp hl
    rw [hf] at hany
    cases hany
  | some x =>
    rw [hl] at hd
    have hdx : detect_pcol header = some x := hd
    rw [hdx, ← hl, lowerLookup, lastSuch_eq_filter]

end PyseerPhandango

namespace PyseerPhandango

/-! ### The row loop: relating `step` to the row classification -/

theorem step_cases (cfg : Config) (var_i p_i : Nat) (st : St) (ln : String) :
    (rowFate cfg var_i p_i ln = .skipShort ∧ step cfg var_i p_i st ln = .ok st) ∨
    (rowFate cfg var_i p_i ln = .skipBp ∧
      step cfg var_i p_i st ln = .ok ⟨st.out_rows, st.bad_bp + 1, st.bad_p⟩) ∨
    (rowFate cfg var_i p_i ln = .skipP ∧
      step cfg var_i p_i st ln = .ok ⟨st.out_rows, st.bad_bp, st.bad_p + 1⟩) ∨
    (rowFate cfg var_i p_i ln = .emitNonpos ∧
      ∃ bp z, pyGet (pySplit ((pySplit ln "\t").getD var_i "") cfg.variant_delim)
            cfg.bp_field_index = some bp ∧
        pyParseInt bp = some z ∧
        step cfg var_i p_i st ln =
          .ok ⟨st.out_rows ++ [outLine cfg z NegLog.inf], st.bad_bp, st.bad_p + 1⟩) ∨
    (rowFate cfg var_i p_i ln = .emit ∧
      ∃ bp z q, pyGet (pySplit ((pySplit ln "\t").getD var_i "") cfg.variant_delim)
            cfg.bp_field_index = some bp ∧
        pyParseInt bp = some z ∧
        pyParseFloat ((pySplit ln "\t").getD p_i "") = some q ∧ ¬ q.le_zero = true ∧
        step cfg var_i p_i st ln =
          .ok ⟨st.out_rows ++ [outLine cfg z (safe_neglog10 q)], st.bad_bp, st.bad_p⟩) ∨
    (rowFate cfg var_i p_i ln = .fatal ∧ ∃ e, step cfg var_i p_i st ln = .error e) := by
  by_cases h1 : (pySplit ln "\t").length ≤ max var_i p_i
  · exact Or.inl ⟨by simp [rowFate, h1], by simp [step, h1]⟩
  by_cases h2 : cfg.variant_delim = ""
  · refine Or.inr (Or.inr (Or.inr (Or.inr (Or.inr ⟨?_, "ValueError: empty separator", ?_⟩))))
    · simp [rowFate, h1, h2]
    · simp [step, h1, h2]
  cases h3 : pyGet (pySplit ((pySplit ln "\t").getD var_i "") cfg.variant_delim)
      cfg.bp_field_index with
  | none =>
    simp only [List.getD_eq_getElem?_getD] at h3
    by_cases h4 : cfg.allow_missing_bp
    · refine Or.inr (Or.inl ⟨?_, ?_⟩)
      · simp [rowFate, h1, h2, h3, h4]
      · simp [step, h1, h2, h3, h4]
    · refine Or.inr (Or.inr (Or.inr (Or.inr (Or.inr
        ⟨?_, "[ERROR] Could not parse BP: missing field index", ?_⟩))))
      · simp [rowFate, h1, h2, h3, h4]
      · simp [step, h1, h2, h3, h4]
  | some bp =>
    simp only [List.getD_eq_getElem?_getD] at h3
    cases h5 : pyParseInt bp with
    | none =>
      by_cases h4 : cfg.allow_missing_bp
      · refine Or.inr (Or.inl ⟨?_, ?_⟩)
        · simp [rowFate, h1, h2, h3, h4, h5]
        · simp [step, h1, h2, h3, h4, h5]
      · refine Or.inr (Or.inr (Or.inr (Or.inr (Or.inr
          ⟨?_, "[ERROR] BP field is not an integer", ?_⟩))))
        · simp [rowFate, h1, h2, h3, h4, h5]
        · simp [step, h1, h2, h3, h4, h5]
    | some z =>
      cases h6 : pyParseFloat ((pySplit ln "\t").getD p_i "") with
      | none =>
        simp only [List.getD_eq_getElem?_getD] at h6
        by_cases h8 : cfg.skip_nonpositive_p
        · refine Or.inr (Or.inr (Or.inl ⟨?_, ?_⟩))
          · simp [rowFate, h1, h2, h3, h5, h6, h8]
          · simp [step, h1, h2, h3, h5, h6, h8]
        · refine Or.inr (Or.inr (Or.inr (Or.inr (Or.inr
            ⟨?_, "[ERROR] P-value is not numeric", ?_⟩))))
          · simp [rowFate, h1, h2, h3, h5, h6, h8]
          · simp [step, h1, h2, h3, h5, h6, h8]
      | some q =>
        simp only [List.getD_eq_getElem?_getD] at h6
        by_cases h7 : q.le_zero = true
        · by_cases h8 : cfg.skip_nonpositive_p
          · refine Or.inr (Or.inr (Or.inl ⟨?_, ?_⟩))
            · simp [rowFate, h1, h2, h3, h5, h6, h7, h8]
            · simp [step, h1, h2, h3, h5, h6, h7, h8]
          · refine Or.inr (Or.inr (Or.inr (Or.inl ⟨?_, bp, z, rfl, h5, ?_⟩)))
            · simp [rowFate, h1, h2, h3, h5, h6, h7, h8]
            · simp [step, h1, h2, h3, h5, h6, h7, h8]
        · refine Or.inr (Or.inr (Or.inr (Or.inr (Or.inl ⟨?_, bp, z, q, rfl, h5, rfl, h7, ?_⟩))))
          · simp [rowFate, h1, h2, h3, h5, h6, h7]
          · simp [step, h1, h2, h3, h5, h6, h7]

end PyseerPhandango

namespace PyseerPhandango

theorem isSkip_at_skipShort : (RowFate.skipShort).isSkip = true := rfl

theorem isSkip_at_skipBp : (RowFate.skipBp).isSkip = true := rfl

theorem isSkip_at_skipP : (RowFate.skipP).isSkip = true := rfl

theorem isSkip_at_emitNonpos : (RowFate.emitNonpos).isSkip = false := rfl

theorem isSkip_at_emit : (RowFate.emit).isSkip = false := rfl

theorem isPCount_at_skipShort : (RowFate.skipShort).isPCount = false := rfl

theorem isPCount_at_skipBp : (RowFate.skipBp).isPCount = false := rfl

theorem isPCount_at_skipP : (RowFate.skipP).isPCount = true := rfl

theorem isPCount_at_emitNonpos : (RowFate.emitNonpos).isPCount = true := rfl

theorem isPCount_at_emit : (RowFate.emit).isPCount = false := rfl

theorem isBpCount_at_skipShort : (RowFate.skipShort).isBpCount = false := rfl

theorem isBpCount_at_skipBp : (RowFate.skipBp).isBpCount = true := rfl

theorem isBpCount_at_skipP : (RowFate.skipP).isBpCount = false := rfl

theorem isBpCount_at_emitNonpos : (RowFate.emitNonpos).isBpCount = false := rfl

theorem isBpCount_at_emit : (RowFate.emit).isBpCount = false := rfl

theorem isEmit_at_skipShort : (RowFate.skipShort).isEmit = false := rfl

theorem isEmit_at_skipBp : (RowFate.skipBp).isEmit = false := rfl

theorem isEmit_at_skipP : (RowFate.skipP).isEmit = false := rfl

theorem isEmit_at_emitNonpos : (RowFate.emitNonpos).isEmit = true := rfl

theorem isEmit_at_emit : (RowFate.emit).isEmit = true := rfl

/-- The combined invariant of a completed row loop: the emitted line
count, both counters, and the shape of every emitted line, expressed with
the per-row classification `rowFate`. -/
theorem processRows_ok_all (cfg : Config) (var_i p_i : Nat) :
    ∀ (rows : List String) (st st2 : St),
      processRows cfg var_i p_i st rows = .ok st2 →
      st2.out_rows.length + rows.countP (fun ln => (rowFate cfg var_i p_i ln).isSkip) =
        st.out_rows.length + rows.length ∧
      st2.bad_p = st.bad_p + rows.countP (fun ln => (rowFate cfg var_i p_i ln).isPCount) ∧
      st2.bad_bp = st.bad_bp + rows.countP (fun ln => (rowFate cfg var_i p_i ln).isBpCount) ∧
      (∃ ls, st2.out_rows = st.out_rows ++ ls ∧ ∀ l ∈ ls, ∃ z n, l = outLine cfg z n) ∧
      st2.out_rows.length =
        st.out_rows.length + rows.countP (fun ln => (rowFate cfg var_i p_i ln).isEmit) := by
  intro rows
  induction rows with
  | nil =>
    intro st st2 h
    simp only [processRows] at h
    injection h with h
    subst h
    exact ⟨by simp, by simp, by simp, ⟨[], by simp, by simp⟩, by simp⟩
  | cons ln rest ih =>
    intro st st2 h
    simp only [processRows] at h
    rcases step_cases cfg var_i p_i st ln with
      ⟨hf, hs⟩ | ⟨hf, hs⟩ | ⟨hf, hs⟩ | ⟨hf, bp, z, hg, hz, hs⟩ |
      ⟨hf, bp, z, q, hg, hz, hq, hql, hs⟩ | ⟨hf, e, hs⟩
    · rw [hs] at h
      have h2 : processRows cfg var_i p_i st rest = .ok st2 := h
      obtain ⟨ihc, ihp, ihbp, ⟨ls, hls, hall⟩, ihe⟩ := ih _ st2 h2
      have ihc2 : st2.out_rows.length +
          rest.countP (fun ln => (rowFate cfg var_i p_i ln).isSkip) =
          (st.out_rows).length + rest.length := ihc
      have ihp2 : st2.bad_p = st.bad_p +
          rest.countP (fun ln => (rowFate cfg var_i p_i ln).isPCount) := ihp
      have ihbp2 : st2.bad_bp = st.bad_bp +
          rest.countP (fun ln => (rowFate cfg var_i p_i ln).isBpCount) := ihbp
      have ihe2 : st2.out_rows.length = (st.out_rows).length +
          rest.countP (fun ln => (rowFate cfg var_i p_i ln).isEmit) := ihe
      have hls2 : st2.out_rows = (st.out_rows) ++ ls := hls
      refine ⟨?_, ?_, ?_, ⟨ls, hls2, hall⟩, ?_⟩
      · simp only [List.countP_cons, hf, isSkip_at_skipShort, List.length_cons]
        simp
        omega
      · simp only [List.countP_cons, hf, isPCount_at_skipShort]
        simp
        omega
      · simp only [List.countP_cons, hf, isBpCount_at_skipShort]
        simp
        omega
      · simp only [List.countP_cons, hf, isEmit_at_skipShort]
        simp
        omega
    · rw [hs] at h
      have h2 : processRows cfg var_i p_i ⟨st.out_rows, st.bad_bp + 1, st.bad_p⟩ rest = .ok st2 := h
      obtain ⟨ihc, ihp, ihbp, ⟨ls, hls, hall⟩, ihe⟩ := ih _ st2 h2
      have ihc2 : st2.out_rows.length +
          rest.countP (fun ln => (rowFate cfg var_i p_i ln).isSkip) =
          (st.out_rows).length + rest.length := ihc
      have ihp2 : st2.bad_p = st.bad_p +
          rest.countP (fun ln => (rowFate cfg var_i p_i ln).isPCount) := ihp
      have ihbp2 : st2.bad_bp = st.bad_bp + 1 +
          rest.countP (fun ln => (rowFate cfg var_i p_i ln).isBpCount) := ihbp
      have ihe2 : st2.out_rows.length = (st.out_rows).length +
          rest.countP (fun ln => (rowFate cfg var_i p_i ln).isEmit) := ihe
      have hls2 : st2.out_rows = (st.out_rows) ++ ls := hls
      refine ⟨?_, ?_, ?_, ⟨ls, hls2, hall⟩, ?_⟩
      · simp only [List.countP_cons, hf, isSkip_at_skipBp, List.length_cons]
        simp
        omega
      · simp only [List.countP_cons, hf, isPCount_at_skipBp]
        simp
        omega
      · simp only [List.countP_cons, hf, isBpCount_at_skipBp]
        simp
        omega
      · simp only [List.countP_cons, hf, isEmit_at_skipBp]
        simp
        omega
    · rw [hs] at h
      have h2 : processRows cfg var_i p_i ⟨st.out_rows, st.bad_bp, st.bad_p + 1⟩ rest = .ok st2 := h
      obtain ⟨ihc, ihp, ihbp, ⟨ls, hls, hall⟩, ihe⟩ := ih _ st2 h2
      have ihc2 : st2.out_rows.length +
          rest.countP (fun ln => (rowFate cfg var_i p_i ln).isSkip) =
          (st.out_rows).length + rest.length := ihc
      have ihp2 : st2.bad_p = st.bad_p + 1 +
          rest.countP (fun ln => (rowFate cfg var_i p_i ln).isPCount) := ihp
      have ihbp2 : st2.bad_bp = st.bad_bp +
          rest.countP (fun ln => (rowFate cfg var_i p_i ln).isBpCount) := ihbp
      have ihe2 : st2.out_rows.length = (st.out_rows).length +
          rest.countP (fun ln => (rowFate cfg var_i p_i ln).isEmit) := ihe
      have hls2 : st2.out_rows = (st.out_rows) ++ ls := hls
      refine ⟨?_, ?_, ?_, ⟨ls, hls2, hall⟩, ?_⟩
      · simp only [List.countP_cons, hf, isSkip_at_skipP, List.length_cons]
        simp
        omega
      · simp only [List.countP_cons, hf, isPCount_at_skipP]
        simp
        omega
      · simp only [List.countP_cons, hf, isBpCount_at_skipP]
        simp
        omega
      · simp only [List.countP_cons, hf, isEmit_at_skipP]
        simp
        omega
    · rw [hs] at h
      have h2 : processRows cfg var_i p_i
          ⟨st.out_rows ++ [outLine cfg z NegLog.inf], st.bad_bp, st.bad_p + 1⟩ rest = .ok st2 := h
      obtain ⟨ihc, ihp, ihbp, ⟨ls, hls, hall⟩, ihe⟩ := ih _ st2 h2
      have ihc2 : st2.out_rows.length +
          rest.countP (fun ln => (rowFate cfg var_i p_i ln).isSkip) =
          (st.out_rows ++ [outLine cfg z NegLog.inf]).length + rest.length := ihc
      have ihp2 : st2.bad_p = st.bad_p + 1 +
          rest.countP (fun ln => (rowFate cfg var_i p_i ln).isPCount) := ihp
      have ihbp2 : st2.bad_bp = st.bad_bp +
          rest.countP (fun ln => (rowFate cfg var_i p_i ln).isBpCount) := ihbp
      have ihe2 : st2.out_rows.length = (st.out_rows ++ [outLine cfg z NegLog.inf]).length +
          rest.countP (fun ln => (rowFate cfg var_i p_i ln).isEmit) := ihe
      have hls2 : st2.out_rows = (st.out_rows ++ [outLine cfg z NegLog.inf]) ++ ls := hls
      simp only [List.length_append, List.length_cons, List.length_nil] at ihc2 ihe2
      refine ⟨?_, ?_, ?_, ⟨outLine cfg z NegLog.inf :: ls, ?_, ?_⟩, ?_⟩
      · simp only [List.countP_cons, hf, isSkip_at_emitNonpos, List.length_cons]
        simp
        omega
      · simp only [List.countP_cons, hf, isPCount_at_emitNonpos]
        simp
        omega
      · simp only [List.countP_cons, hf, isBpCount_at_emitNonpos]
        simp
        omega
      · rw [hls2]
        simp
      · intro l hl
        rcases List.mem_cons.mp hl with rfl | hl2
        · exact ⟨z, NegLog.inf, rfl⟩
        · exact hall l hl2
      · simp only [List.countP_cons, hf, isEmit_at_emitNonpos]
        simp
        omega
    · rw [hs] at h
      have h2 : processRows cfg var_i p_i
          ⟨st.out_rows ++ [outLine cfg z (safe_neglog10 q)], st.bad_bp, st.bad_p⟩ rest = .ok st2 := h
      obtain ⟨ihc, ihp, ihbp, ⟨ls, hls, hall⟩, ihe⟩ := ih _ st2 h2
      have ihc2 : st2.out_rows.length +
          rest.countP (fun ln => (rowFate cfg var_i p_i ln).isSkip) =
          (st.out_rows ++ [outLine cfg z (safe_neglog10 q)]).length + rest.length := ihc
      have ihp2 : st2.bad_p = st.bad_p +
          rest.countP (fun ln => (rowFate cfg var_i p_i ln).isPCount) := ihp
      have ihbp2 : st2.bad_bp = st.bad_bp +
          rest.countP (fun ln => (rowFate cfg var_i p_i ln).isBpCount) := ihbp
      have ihe2 : st2.out_rows.length = (st.out_rows ++ [outLine cfg z (safe_neglog10 q)]).length +
          rest.countP (fun ln => (rowFate cfg var_i p_i ln).isEmit) := ihe
      have hls2 : st2.out_rows = (st.out_rows ++ [outLine cfg z (safe_neglog10 q)]) ++ ls := hls
      simp only [List.length_append, List.length_cons, List.length_nil] at ihc2 ihe2
      refine ⟨?_, ?_, ?_, ⟨outLine cfg z (safe_neglog10 q) :: ls, ?_, ?_⟩, ?_⟩
      · simp only [List.countP_cons, hf, isSkip_at_emit, List.length_cons]
        simp
        omega
      · simp only [List.countP_cons, hf, isPCount_at_emit]
        simp
        omega
      · simp only [List.countP_cons, hf, isBpCount_at_emit]
        simp
        omega
      · rw [hls2]
        simp
      · intro l hl
        rcases List.mem_cons.mp hl with rfl | hl2
        · exact ⟨z, safe_neglog10 q, rfl⟩
        · exact hall l hl2
      · simp only [List.countP_cons, hf, isEmit_at_emit]
        simp
        omega
    · rw [hs] at h
      have h2 : (Except.error e : Except String St) = .ok st2 := h
      exact Except.noConfusion h2

/-- A row classified as fatal aborts the loop, wherever it sits. -/
theorem processRows_fatal (cfg : Config) (var_i p_i : Nat) :
    ∀ (rows : List String), (∃ ln ∈ rows, rowFate cfg var_i p_i ln = .fatal) →
      ∀ st, ∃ e, processRows cfg var_i p_i st rows = .error e := by
  intro rows
  induction rows with
  | nil =>
    rintro ⟨ln, hmem, -⟩
    cases hmem
  | cons l rest ih =>
    rintro ⟨ln, hmem, hfate⟩ st
    cases hstep : step cfg var_i p_i st l with
    | error e =>
      exact ⟨e, by simp only [processRows]; rw [hstep]⟩
    | ok stm =>
      rcases List.mem_cons.mp hmem with rfl | hmem2
      · rcases step_cases cfg var_i p_i st ln with
          ⟨hf, -⟩ | ⟨hf, -⟩ | ⟨hf, -⟩ | ⟨hf, -⟩ | ⟨hf, -⟩ | ⟨-, e3, hs3⟩
        · rw [hf] at hfate; cases hfate
        · rw [hf] at hfate; cases hfate
        · rw [hf] at hfate; cases hfate
        · rw [hf] at hfate; cases hfate
        · rw [hf] at hfate; cases hfate
        · rw [hstep] at hs3; cases hs3
      · obtain ⟨e2, he2⟩ := ih ⟨ln, hmem2, hfate⟩ stm
        exact ⟨e2, by simp only [processRows]; rw [hstep]; exact he2⟩

end PyseerPhandango

namespace PyseerPhandango

/-! ### Glue between `main` and the row loop -/

theorem main_eq_processRows (cfg : Config) (content : String)
    (hl : String) (dl : List String) (var_i p_i : Nat)
    (hlines : readLines content = hl :: dl)
    (hvar : lastIndexOf (pySplit hl "\t") cfg.variant_col = some var_i)
    (hpcol : resolvePcolIdx cfg (pySplit hl "\t") = some p_i) :
    main cfg content = processRows cfg var_i p_i initSt dl := by
  rw [main, hlines]
  simp only [hvar, hpcol]

theorem main_error_of_empty (cfg : Config) (content : String)
    (hlines : readLines content = []) :
    main cfg content = .error "[ERROR] Input file is empty" := by
  rw [main, hlines]

theorem main_error_of_no_variant (cfg : Config) (content : String)
    (hl : String) (dl : List String)
    (hlines : readLines content = hl :: dl)
    (hvar : lastIndexOf (pySplit hl "\t") cfg.variant_col = none) :
    main cfg content = .error ("[ERROR] Variant column not found: " ++ cfg.variant_col) := by
  rw [main, hlines]
  simp only [hvar]

theorem main_error_of_no_pcol (cfg : Config) (content : String)
    (hl : String) (dl : List String) (var_i : Nat)
    (hlines : readLines content = hl :: dl)
    (hvar : lastIndexOf (pySplit hl "\t") cfg.variant_col = some var_i)
    (hpcol : resolvePcolIdx cfg (pySplit hl "\t") = none) :
    main cfg content = .error "[ERROR] Could not determine p-value column" := by
  rw [main, hlines]
  simp only [hvar, hpcol]

theorem lastIndexOfFrom_eq_none (name : String) :
    ∀ l : List String, name ∉ l → ∀ i, lastIndexOfFrom name l i = none := by
  intro l
  induction l with
  | nil => intro _ i; rfl
  | cons x t ih =>
    intro h i
    have hx : ¬ x = name := by
      intro he
      exact h (by rw [he]; exact List.mem_cons_self name t)
    have ht : name ∉ t := fun hm => h (List.mem_cons_of_mem x hm)
    rw [lastIndexOfFrom, ih ht (i + 1)]
    show (if x = name then some i else none) = none
    rw [if_neg hx]

theorem lastIndexOf_eq_none (header : List String) (name : String)
    (h : name ∉ header) : lastIndexOf header name = none :=
  lastIndexOfFrom_eq_none name header h 0

/-- The silent, position and p-value skips partition the skipped rows. -/
theorem countP_isSkip_split (cfg : Config) (var_i p_i : Nat) :
    ∀ dl : List String,
      dl.countP (fun ln => (rowFate cfg var_i p_i ln).isSkip) =
        dl.countP (fun ln => decide (rowFate cfg var_i p_i ln = .skipShort)) +
        dl.countP (fun ln => (rowFate cfg var_i p_i ln).isBpCount) +
        dl.countP (fun ln => decide (rowFate cfg var_i p_i ln = .skipP)) := by
  intro dl
  induction dl with
  | nil => rfl
  | cons ln rest ih =>
    simp only [List.countP_cons, ih]
    cases hf : rowFate cfg var_i p_i ln <;>
      simp [isSkip_at_skipShort, isSkip_at_skipBp, isSkip_at_skipP, isSkip_at_emitNonpos,
        isSkip_at_emit, isBpCount_at_skipShort, isBpCount_at_skipBp, isBpCount_at_skipP,
        isBpCount_at_emitNonpos, isBpCount_at_emit,
        show RowFate.fatal.isSkip = false from rfl,
        show RowFate.fatal.isBpCount = false from rfl] <;>
      omega

end PyseerPhandango

namespace PyseerPhandango

/-! ### The claims -/

/-- C1: on every run that succeeds, the number of data rows in the output
file (the output lines after the fixed header line) equals the number of
data rows of the input (the non-blank lines after the header line) minus
the rows skipped for short length, skipped for an unparsable position, or
skipped for a bad p-value. -/
theorem C1_output_row_count (cfg : Config) (content : String)
    (hl : String) (dl : List String) (var_i p_i : Nat) (r : St)
    (hlines : readLines content = hl :: dl)
    (hvar : lastIndexOf (pySplit hl "\t") cfg.variant_col = some var_i)
    (hpcol : resolvePcolIdx cfg (pySplit hl "\t") = some p_i)
    (hrun : main cfg content = .ok r) :
    r.out_rows.length - 1 =
      dl.length -
        (dl.countP (fun ln => decide (rowFate cfg var_i p_i ln = .skipShort)) +
         dl.countP (fun ln => (rowFate cfg var_i p_i ln).isBpCount) +
         dl.countP (fun ln => decide (rowFate cfg var_i p_i ln = .skipP))) ∧
    r.out_rows.length - 1 +
      (dl.countP (fun ln => decide (rowFate cfg var_i p_i ln = .skipShort)) +
       dl.countP (fun ln => (rowFate cfg var_i p_i ln).isBpCount) +
       dl.countP (fun ln => decide (rowFate cfg var_i p_i ln = .skipP))) = dl.length := by
  rw [main_eq_processRows cfg content hl dl var_i p_i hlines hvar hpcol] at hrun
  obtain ⟨ihc, -, -, ⟨ls, hls, -⟩, -⟩ := processRows_ok_all cfg var_i p_i dl initSt r hrun
  rw [countP_isSkip_split] at ihc
  have hlen : r.out_rows.length = initSt.out_rows.length + ls.length := by
    rw [hls, List.length_append]
  have h1 : initSt.out_rows.length = 1 := rfl
  constructor
  · omega
  · omega

/-- C2: for a processed row (long enough, with a parsable position), a
p-value field parsing to a number at most zero — under Python float
semantics: a negative or zero value, negative infinity, or a positive
literal underflowing to zero, but not NaN or positive infinity — never
aborts the run: with the skip switch the row is dropped and counted,
without it the row is emitted with the token `inf` in both
transformed-value fields (and counted); a p-value field on which
`float()` raises (`pyParseFloat` returns `none`) is dropped and counted
with the switch and aborts the run without it. -/
theorem C2_nonpositive_p (cfg : Config) (var_i p_i : Nat) (st : St) (ln : String)
    (bp : String) (z : Int)
    (hlen : ¬ (pySplit ln "\t").length ≤ max var_i p_i)
    (hdelim : cfg.variant_delim ≠ "")
    (hbp : pyGet (pySplit ((pySplit ln "\t").getD var_i "") cfg.variant_delim)
        cfg.bp_field_index = some bp)
    (hz : pyParseInt bp = some z) :
    (∀ q : PyFloat, pyParseFloat ((pySplit ln "\t").getD p_i "") = some q → q.le_zero = true →
      (cfg.skip_nonpositive_p = true →
        step cfg var_i p_i st ln = .ok ⟨st.out_rows, st.bad_bp, st.bad_p + 1⟩) ∧
      (cfg.skip_nonpositive_p = false →
        step cfg var_i p_i st ln =
          .ok ⟨st.out_rows ++
              [String.intercalate "\t"
                [cfg.chr_index, cfg.snp_name, pyIntRepr z, "inf", "inf", cfg.r2]],
            st.bad_bp, st.bad_p + 1⟩)) ∧
    (pyParseFloat ((pySplit ln "\t").getD p_i "") = none →
      (cfg.skip_nonpositive_p = true →
        step cfg var_i p_i st ln = .ok ⟨st.out_rows, st.bad_bp, st.bad_p + 1⟩) ∧
      (cfg.skip_nonpositive_p = false → ∃ e, step cfg var_i p_i st ln = .error e)) := by
  have hbp2 := hbp
  simp only [List.getD_eq_getElem?_getD] at hbp2
  constructor
  · intro q hq hle
    have hq2 := hq
    simp only [List.getD_eq_getElem?_getD] at hq2
    constructor
    · intro hskip
      simp [step, hlen, hdelim, hbp2, hz, hq2, hle, hskip]
    · intro hskip
      simp [step, hlen, hdelim, hbp2, hz, hq2, hle, hskip, outLine, NegLog.render]
  · intro hq
    have hq2 := hq
    simp only [List.getD_eq_getElem?_getD] at hq2
    constructor
    · intro hskip
      simp [step, hlen, hdelim, hbp2, hz, hq2, hskip]
    · intro hskip
      exact ⟨"[ERROR] P-value is not numeric",
        by simp [step, hlen, hdelim, hbp2, hz, hq2, hskip]⟩

/-- C3: on every failure condition — empty input after blank-line
removal, variant column absent from the header, unresolvable p-value
column, or a row whose strict-mode position or p-value parsing fails —
the run aborts and no output file is written (the model writes the file
only from a completed run). -/
theorem C3_failures_abort (cfg : Config) (content : String)
    (h : readLines content = [] ∨
      ∃ hl dl, readLines content = hl :: dl ∧
        (lastIndexOf (pySplit hl "\t") cfg.variant_col = none ∨
         resolvePcolIdx cfg (pySplit hl "\t") = none ∨
         ∃ var_i p_i, lastIndexOf (pySplit hl "\t") cfg.variant_col = some var_i ∧
           resolvePcolIdx cfg (pySplit hl "\t") = some p_i ∧
           ∃ ln ∈ dl, rowFate cfg var_i p_i ln = .fatal)) :
    writtenFile (main cfg content) = none := by
  rcases h with hempty | ⟨hl, dl, hlines, hcase⟩
  · rw [main_error_of_empty cfg content hempty]
    rfl
  rcases hcase with hvar | hpcol | ⟨var_i, p_i, hvar, hpcol, hfatal⟩
  · rw [main_error_of_no_variant cfg content hl dl hlines hvar]
    rfl
  · cases hv : lastIndexOf (pySplit hl "\t") cfg.variant_col with
    | none =>
      rw [main_error_of_no_variant cfg content hl dl hlines hv]
      rfl
    | some var_i =>
      rw [main_error_of_no_pcol cfg content hl dl var_i hlines hv hpcol]
      rfl
  · rw [main_eq_processRows cfg content hl dl var_i p_i hlines hvar hpcol]
    obtain ⟨e, he⟩ := processRows_fatal cfg var_i p_i dl hfatal initSt
    rw [he]
    rfl

end PyseerPhandango

namespace PyseerPhandango

/-- C4: with no explicit p-value column, the resolved column lower-cases
to the first candidate of the ordered list that matches a header name
case-insensitively; when no candidate matches, it is the first header
name in header order satisfying the substring heuristic (contains
`pvalue`, or equals `p` or `pval`, case-insensitively); in particular the
header `variant, lrt-pvalue, other` resolves to `lrt-pvalue`. -/
theorem C4_pcol_autodetect :
    (∀ (header : List String) (c : String),
      candidates.find? (fun cand => header.any (fun h => pyLower h == cand)) = some c →
        ∃ h, detect_pcol header = some h ∧ h ∈ header ∧ pyLower h = c) ∧
    (∀ header : List String,
      candidates.find? (fun cand => header.any (fun h => pyLower h == cand)) = none →
        detect_pcol header = header.find? fallbackHit) ∧
    detect_pcol ["variant", "lrt-pvalue", "other"] = some "lrt-pvalue" :=
  ⟨detect_pcol_candidate, detect_pcol_fallback, by rfl⟩

/-- C5: every successful run writes a file whose first line is exactly
the fixed header, followed by one tab-joined six-field line per emitted
row whose fourth and fifth fields are the same rendered transformed
value and whose first, second and sixth fields are the configured
chromosome label, site label and r2 placeholder; the file ends with a
trailing newline. -/
theorem C5_output_format (cfg : Config) (content : String) (r : St)
    (hrun : main cfg content = .ok r) :
    ∃ tail, r.out_rows = DEFAULT_HEADER :: tail ∧
      (∀ l ∈ tail, ∃ (z : Int) (n : NegLog),
        l = String.intercalate "\t"
          [cfg.chr_index, cfg.snp_name, pyIntRepr z, n.render, n.render, cfg.r2]) ∧
      writtenFile (main cfg content) =
        some (String.intercalate "\n" (DEFAULT_HEADER :: tail) ++ "\n") := by
  cases hlines : readLines content with
  | nil =>
    rw [main_error_of_empty cfg content hlines] at hrun
    exact Except.noConfusion hrun
  | cons hl dl =>
    cases hvar : lastIndexOf (pySplit hl "\t") cfg.variant_col with
    | none =>
      rw [main_error_of_no_variant cfg content hl dl hlines hvar] at hrun
      exact Except.noConfusion hrun
    | some var_i =>
      cases hpcol : resolvePcolIdx cfg (pySplit hl "\t") with
      | none =>
        rw [main_error_of_no_pcol cfg content hl dl var_i hlines hvar hpcol] at hrun
        exact Except.noConfusion hrun
      | some p_i =>
        have hmain := main_eq_processRows cfg content hl dl var_i p_i hlines hvar hpcol
        rw [hmain] at hrun
        obtain ⟨-, -, -, ⟨ls, hls, hall⟩, -⟩ :=
          processRows_ok_all cfg var_i p_i dl initSt r hrun
        have hls2 : r.out_rows = DEFAULT_HEADER :: ls := hls
        refine ⟨ls, hls2, ?_, ?_⟩
        · intro l hlmem
          obtain ⟨z, n, hzn⟩ := hall l hlmem
          exact ⟨z, n, by rw [hzn, outLine]⟩
        · rw [hmain, hrun]
          show some (renderFile r.out_rows) = _
          rw [renderFile, hls2]

/-- C6: a processed row that emits an output line reproduces in the
position field exactly the integer embedded in the variant identifier at
the configured field index (rendered back by the same integer
rendering). -/
theorem C6_position_roundtrip (cfg : Config) (var_i p_i : Nat) (st st2 : St)
    (ln : String) (z : Int)
    (hfield : pyGet (pySplit ((pySplit ln "\t").getD var_i "") cfg.variant_delim)
        cfg.bp_field_index = some (pyIntRepr z))
    (hstep : step cfg var_i p_i st ln = .ok st2)
    (hchanged : st2.out_rows ≠ st.out_rows) :
    ∃ n : NegLog, st2.out_rows = st.out_rows ++
      [String.intercalate "\t"
        [cfg.chr_index, cfg.snp_name, pyIntRepr z, n.render, n.render, cfg.r2]] := by
  rcases step_cases cfg var_i p_i st ln with
    ⟨hf, hs⟩ | ⟨hf, hs⟩ | ⟨hf, hs⟩ | ⟨hf, bp, z2, hg, hz2, hs⟩ |
    ⟨hf, bp, z2, q, hg, hz2, hq, hql, hs⟩ | ⟨hf, e, hs⟩
  · rw [hstep] at hs
    injection hs with hs
    exact absurd (by rw [hs]) hchanged
  · rw [hstep] at hs
    injection hs with hs
    exact absurd (by rw [hs]) hchanged
  · rw [hstep] at hs
    injection hs with hs
    exact absurd (by rw [hs]) hchanged
  · rw [hstep] at hs
    injection hs with hs
    rw [hfield] at hg
    injection hg with hg
    rw [← hg, pyParseInt_pyIntRepr] at hz2
    injection hz2 with hz2
    refine ⟨NegLog.inf, ?_⟩
    rw [hs]
    show st.out_rows ++ [outLine cfg z2 NegLog.inf] = _
    rw [← hz2, outLine]
  · rw [hstep] at hs
    injection hs with hs
    rw [hfield] at hg
    injection hg with hg
    rw [← hg, pyParseInt_pyIntRepr] at hz2
    injection hz2 with hz2
    refine ⟨safe_neglog10 q, ?_⟩
    rw [hs]
    show st.out_rows ++ [outLine cfg z2 (safe_neglog10 q)] = _
    rw [← hz2, outLine]
  · rw [hstep] at hs
    exact Except.noConfusion hs

/-- C9: the variant column is matched case-sensitively: a header whose
only matches differ in letter case aborts the run with the
missing-variant-column error, while the p-value auto-detection matches
case-insensitively. -/
theorem C9_variant_case_sensitive (cfg : Config) (content : String)
    (hl : String) (dl : List String)
    (hlines : readLines content = hl :: dl)
    (hnot : cfg.variant_col ∉ pySplit hl "\t")
    (hnear : ∃ h ∈ pySplit hl "\t", h ≠ cfg.variant_col ∧
      pyLower h = pyLower cfg.variant_col) :
    main cfg content = .error ("[ERROR] Variant column not found: " ++ cfg.variant_col) ∧
    writtenFile (main cfg content) = none ∧
    detect_pcol ["other", "LRT-PVALUE"] = some "LRT-PVALUE" := by
  have hvar := lastIndexOf_eq_none (pySplit hl "\t") cfg.variant_col hnot
  have hmain := main_error_of_no_variant cfg content hl dl hlines hvar
  refine ⟨hmain, by rw [hmain]; rfl, by rfl⟩

/-- C10: in the candidate stage of the auto-detection, among header names
lower-casing to the matched candidate the LAST one in header order is
resolved (later entries of the lower-cased dict overwrite earlier ones),
while the fallback stage resolves the FIRST matching header name. -/
theorem C10_case_collision_order :
    (∀ (header : List String) (c : String),
      candidates.find? (fun cand => header.any (fun h => pyLower h == cand)) = some c →
        detect_pcol header = (header.filter (fun h => pyLower h == c)).getLast?) ∧
    (∀ header : List String,
      candidates.find? (fun cand => header.any (fun h => pyLower h == cand)) = none →
        detect_pcol header = header.find? fallbackHit) ∧
    detect_pcol ["PValue", "pValue", "x"] = some "pValue" ∧
    detect_pcol ["my-Pvalue-x", "other-pvalue"] = some "my-Pvalue-x" :=
  ⟨detect_pcol_candidate_last, detect_pcol_fallback, by rfl, by rfl⟩

end PyseerPhandango

namespace PyseerPhandango

theorem warnP_mem_iff (r : St) : warnPMsg ∈ stderrWarnings r ↔ r.bad_p ≠ 0 := by
  rw [stderrWarnings]
  by_cases hb : r.bad_bp = 0 <;> by_cases hp : r.bad_p = 0 <;>
    simp [hb, hp, warnPMsg, warnBpMsg]

theorem warnBp_mem_iff (r : St) : warnBpMsg ∈ stderrWarnings r ↔ r.bad_bp ≠ 0 := by
  rw [stderrWarnings]
  by_cases hb : r.bad_bp = 0 <;> by_cases hp : r.bad_p = 0 <;>
    simp [hb, hp, warnPMsg, warnBpMsg]

/-- C7 counterexample: on the one-row input whose p-value field is `0`
and with both leniency switches off, the run succeeds, every data row is
emitted (none is skipped: the output has as many lines as the input), yet
the p-value counter is 1 and the p-value warning line is printed.  So a
p-value warning does not imply that a row was skipped. -/
theorem C7_counterexample :
    main defaultConfig "variant\tlrt-pvalue\nv_7_A\t0" =
      .ok ⟨[DEFAULT_HEADER, "26\t.\t7\tinf\tinf\t0"], 0, 1⟩ ∧
    (readLines "variant\tlrt-pvalue\nv_7_A\t0").length = 2 ∧
    stderrWarnings ⟨[DEFAULT_HEADER, "26\t.\t7\tinf\tinf\t0"], 0, 1⟩ = [warnPMsg] :=
  ⟨by rfl, by rfl, by rfl⟩

/-- C7 (amended): on a successful run the position counter counts exactly
the rows skipped for position reasons, while the p-value counter counts
both the rows skipped for p-value reasons and the rows emitted with a
non-positive numeric p-value; each warning line is emitted exactly when
its counter is nonzero, so a p-value warning can occur on a run in which
no row was skipped. -/
theorem C7_warning_counters (cfg : Config) (content : String)
    (hl : String) (dl : List String) (var_i p_i : Nat) (r : St)
    (hlines : readLines content = hl :: dl)
    (hvar : lastIndexOf (pySplit hl "\t") cfg.variant_col = some var_i)
    (hpcol : resolvePcolIdx cfg (pySplit hl "\t") = some p_i)
    (hrun : main cfg content = .ok r) :
    r.bad_p = dl.countP (fun ln => (rowFate cfg var_i p_i ln).isPCount) ∧
    r.bad_bp = dl.countP (fun ln => (rowFate cfg var_i p_i ln).isBpCount) ∧
    (warnPMsg ∈ stderrWarnings r ↔ r.bad_p ≠ 0) ∧
    (warnBpMsg ∈ stderrWarnings r ↔ r.bad_bp ≠ 0) := by
  rw [main_eq_processRows cfg content hl dl var_i p_i hlines hvar hpcol] at hrun
  obtain ⟨-, ihp, ihbp, -, -⟩ := processRows_ok_all cfg var_i p_i dl initSt r hrun
  have hp0 : initSt.bad_p = 0 := rfl
  have hbp0 : initSt.bad_bp = 0 := rfl
  exact ⟨by omega, by omega, warnP_mem_iff r, warnBp_mem_iff r⟩

/-- C8 counterexample: the variant `chr_-5_A_T` parses to the negative
position `-5`, and the run succeeds and emits it: the output data row
carries a negative value in its position field. -/
theorem C8_counterexample :
    main defaultConfig "variant\tlrt-pvalue\nchr_-5_A_T\t0.5" =
      .ok ⟨[DEFAULT_HEADER, "26\t.\t-5\t-log10(5/10)\t-log10(5/10)\t0"], 0, 0⟩ ∧
    "26\t.\t-5\t-log10(5/10)\t-log10(5/10)\t0" =
      String.intercalate "\t"
        ["26", ".", pyIntRepr (-5), "-log10(5/10)", "-log10(5/10)", "0"] ∧
    pyParseInt "-5" = some (-5) ∧ ((-5 : Int) < 0) :=
  ⟨by rfl, by rfl, by rfl, by decide⟩

/-- C8 (amended): every emitted row carries in its position field the
decimal rendering of an integer, and that integer is not necessarily
non-negative (the counterexample run emits `-5`). -/
theorem C8_bp_field_integer (cfg : Config) (content : String) (r : St)
    (hrun : main cfg content = .ok r) :
    ∀ l ∈ r.out_rows.drop 1, ∃ (z : Int) (n : NegLog),
      l = String.intercalate "\t"
        [cfg.chr_index, cfg.snp_name, pyIntRepr z, n.render, n.render, cfg.r2] := by
  cases hlines : readLines content with
  | nil =>
    rw [main_error_of_empty cfg content hlines] at hrun
    exact Except.noConfusion hrun
  | cons hl dl =>
    cases hvar : lastIndexOf (pySplit hl "\t") cfg.variant_col with
    | none =>
      rw [main_error_of_no_variant cfg content hl dl hlines hvar] at hrun
      exact Except.noConfusion hrun
    | some var_i =>
      cases hpcol : resolvePcolIdx cfg (pySplit hl "\t") with
      | none =>
        rw [main_error_of_no_pcol cfg content hl dl var_i hlines hvar hpcol] at hrun
        exact Except.noConfusion hrun
      | some p_i =>
        rw [main_eq_processRows cfg content hl dl var_i p_i hlines hvar hpcol] at hrun
        obtain ⟨-, -, -, ⟨ls, hls, hall⟩, -⟩ :=
          processRows_ok_all cfg var_i p_i dl initSt r hrun
        have hls2 : r.out_rows = DEFAULT_HEADER :: ls := hls
        intro l hlmem
        rw [hls2] at hlmem
        simp only [List.drop_succ_cons, List.drop_zero] at hlmem
        obtain ⟨z, n, hzn⟩ := hall l hlmem
        exact ⟨z, n, by rw [hzn, outLine]⟩

end PyseerPhandango

namespace PyseerPhandango

/-! ### Concrete witnesses instantiating the claims -/

def w1in : String := "variant\tlrt-pvalue\nv_1_A\t0.5\nshort"

def w1hl : String := "variant\tlrt-pvalue"

def w1dl : List String := ["v_1_A\t0.5", "short"]

def w1res : St := ⟨[DEFAULT_HEADER, "26\t.\t1\t-log10(5/10)\t-log10(5/10)\t0"], 0, 0⟩

/-- Witness for C1: an input with one emitted row and one short skipped
row; the conclusion is obtained from the claim theorem itself. -/
theorem C1_witness :
    (readLines w1in = w1hl :: w1dl ∧
     lastIndexOf (pySplit w1hl "\t") defaultConfig.variant_col = some 0 ∧
     resolvePcolIdx defaultConfig (pySplit w1hl "\t") = some 1 ∧
     main defaultConfig w1in = .ok w1res) ∧
    (w1res.out_rows.length - 1 =
      w1dl.length -
        (w1dl.countP (fun ln => decide (rowFate defaultConfig 0 1 ln = .skipShort)) +
         w1dl.countP (fun ln => (rowFate defaultConfig 0 1 ln).isBpCount) +
         w1dl.countP (fun ln => decide (rowFate defaultConfig 0 1 ln = .skipP))) ∧
     w1res.out_rows.length - 1 +
       (w1dl.countP (fun ln => decide (rowFate defaultConfig 0 1 ln = .skipShort)) +
        w1dl.countP (fun ln => (rowFate defaultConfig 0 1 ln).isBpCount) +
        w1dl.countP (fun ln => decide (rowFate defaultConfig 0 1 ln = .skipP))) = w1dl.length) :=
  ⟨⟨by rfl, by rfl, by rfl, by rfl⟩,
   C1_output_row_count defaultConfig w1in w1hl w1dl 0 1 w1res (by rfl) (by rfl) (by rfl) (by rfl)⟩

def w2ln : String := "v_3_A\t0"

/-- Witness for C2 at a concrete processed row. -/
theorem C2_witness :
    (¬ (pySplit w2ln "\t").length ≤ max 0 1 ∧
     defaultConfig.variant_delim ≠ "" ∧
     pyGet (pySplit ((pySplit w2ln "\t").getD 0 "") defaultConfig.variant_delim)
         defaultConfig.bp_field_index = some "3" ∧
     pyParseInt "3" = some 3) ∧
    ((∀ q : PyFloat, pyParseFloat ((pySplit w2ln "\t").getD 1 "") = some q → q.le_zero = true →
        (defaultConfig.skip_nonpositive_p = true →
          step defaultConfig 0 1 initSt w2ln =
            .ok ⟨initSt.out_rows, initSt.bad_bp, initSt.bad_p + 1⟩) ∧
        (defaultConfig.skip_nonpositive_p = false →
          step defaultConfig 0 1 initSt w2ln =
            .ok ⟨initSt.out_rows ++
                [String.intercalate "\t"
                  [defaultConfig.chr_index, defaultConfig.snp_name, pyIntRepr 3, "inf", "inf",
                    defaultConfig.r2]],
              initSt.bad_bp, initSt.bad_p + 1⟩)) ∧
      (pyParseFloat ((pySplit w2ln "\t").getD 1 "") = none →
        (defaultConfig.skip_nonpositive_p = true →
          step defaultConfig 0 1 initSt w2ln =
            .ok ⟨initSt.out_rows, initSt.bad_bp, initSt.bad_p + 1⟩) ∧
        (defaultConfig.skip_nonpositive_p = false →
          ∃ e, step defaultConfig 0 1 initSt w2ln = .error e))) :=
  ⟨⟨by decide, by decide, by rfl, by rfl⟩,
   C2_nonpositive_p defaultConfig 0 1 initSt w2ln "3" 3 (by decide) (by decide) (by rfl) (by rfl)⟩

/-- Witness for C3 at the empty input. -/
theorem C3_witness :
    (readLines "" = [] ∨
      ∃ hl dl, readLines "" = hl :: dl ∧
        (lastIndexOf (pySplit hl "\t") defaultConfig.variant_col = none ∨
         resolvePcolIdx defaultConfig (pySplit hl "\t") = none ∨
         ∃ var_i p_i,
           lastIndexOf (pySplit hl "\t") defaultConfig.variant_col = some var_i ∧
           resolvePcolIdx defaultConfig (pySplit hl "\t") = some p_i ∧
           ∃ ln ∈ dl, rowFate defaultConfig var_i p_i ln = .fatal)) ∧
    writtenFile (main defaultConfig "") = none :=
  ⟨Or.inl (by rfl), C3_failures_abort defaultConfig "" (Or.inl (by rfl))⟩

/-- Witness for C4 at the header of the spec example. -/
theorem C4_witness :
    candidates.find?
        (fun cand => (["variant", "lrt-pvalue", "other"] : List String).any
          (fun h => pyLower h == cand)) = some "lrt-pvalue" ∧
    (∃ h, detect_pcol ["variant", "lrt-pvalue", "other"] = some h ∧
      h ∈ ["variant", "lrt-pvalue", "other"] ∧ pyLower h = "lrt-pvalue") :=
  ⟨by rfl, C4_pcol_autodetect.1 ["variant", "lrt-pvalue", "other"] "lrt-pvalue" (by rfl)⟩

def w5in : String := "variant\tlrt-pvalue\nv_2_C\t0.1"

def w5res : St := ⟨[DEFAULT_HEADER, "26\t.\t2\t-log10(1/10)\t-log10(1/10)\t0"], 0, 0⟩

/-- Witness for C5 on a one-row successful run. -/
theorem C5_witness :
    main defaultConfig w5in = .ok w5res ∧
    (∃ tail, w5res.out_rows = DEFAULT_HEADER :: tail ∧
      (∀ l ∈ tail, ∃ (z : Int) (n : NegLog),
        l = String.intercalate "\t"
          [defaultConfig.chr_index, defaultConfig.snp_name, pyIntRepr z, n.render, n.render,
            defaultConfig.r2]) ∧
      writtenFile (main defaultConfig w5in) =
        some (String.intercalate "\n" (DEFAULT_HEADER :: tail) ++ "\n")) :=
  ⟨by rfl, C5_output_format defaultConfig w5in w5res (by rfl)⟩

def w6ln : String := "AE017143.1_12345_A_T\t0.01"

def w6res : St := ⟨[DEFAULT_HEADER, "26\t.\t12345\t-log10(1/100)\t-log10(1/100)\t0"], 0, 0⟩

/-- Witness for C6 at the spec example variant `AE017143.1_12345_A_T`. -/
theorem C6_witness :
    (pyGet (pySplit ((pySplit w6ln "\t").getD 0 "") defaultConfig.variant_delim)
        defaultConfig.bp_field_index = some (pyIntRepr 12345) ∧
     step defaultConfig 0 1 initSt w6ln = .ok w6res ∧
     w6res.out_rows ≠ initSt.out_rows) ∧
    (∃ n : NegLog, w6res.out_rows = initSt.out_rows ++
      [String.intercalate "\t"
        [defaultConfig.chr_index, defaultConfig.snp_name, pyIntRepr 12345, n.render, n.render,
          defaultConfig.r2]]) :=
  ⟨⟨by rfl, by rfl, by decide⟩,
   C6_position_roundtrip defaultConfig 0 1 initSt w6res w6ln 12345 (by rfl) (by rfl) (by decide)⟩

def w7cfg : Config := { skip_nonpositive_p := true }

def w7in : String := "variant\tlrt-pvalue\nv_1_A\t0\nv_2_A\t0.1"

def w7hl : String := "variant\tlrt-pvalue"

def w7dl : List String := ["v_1_A\t0", "v_2_A\t0.1"]

def w7res : St := ⟨[DEFAULT_HEADER, "26\t.\t2\t-log10(1/10)\t-log10(1/10)\t0"], 0, 1⟩

/-- Witness for the amended C7, on a run with one row skipped for a
non-positive p-value. -/
theorem C7_witness :
    (readLines w7in = w7hl :: w7dl ∧
     lastIndexOf (pySplit w7hl "\t") w7cfg.variant_col = some 0 ∧
     resolvePcolIdx w7cfg (pySplit w7hl "\t") = some 1 ∧
     main w7cfg w7in = .ok w7res) ∧
    (w7res.bad_p = w7dl.countP (fun ln => (rowFate w7cfg 0 1 ln).isPCount) ∧
     w7res.bad_bp = w7dl.countP (fun ln => (rowFate w7cfg 0 1 ln).isBpCount) ∧
     (warnPMsg ∈ stderrWarnings w7res ↔ w7res.bad_p ≠ 0) ∧
     (warnBpMsg ∈ stderrWarnings w7res ↔ w7res.bad_bp ≠ 0)) :=
  ⟨⟨by rfl, by rfl, by rfl, by rfl⟩,
   C7_warning_counters w7cfg w7in w7hl w7dl 0 1 w7res (by rfl) (by rfl) (by rfl) (by rfl)⟩

def w8in : String := "variant\tlrt-pvalue\nx_9_A\t0.1"

def w8res : St := ⟨[DEFAULT_HEADER, "26\t.\t9\t-log10(1/10)\t-log10(1/10)\t0"], 0, 0⟩

/-- Witness for the amended C8 on a successful run. -/
theorem C8_witness :
    main defaultConfig w8in = .ok w8res ∧
    (∀ l ∈ w8res.out_rows.drop 1, ∃ (z : Int) (n : NegLog),
      l = String.intercalate "\t"
        [defaultConfig.chr_index, defaultConfig.snp_name, pyIntRepr z, n.render, n.render,
          defaultConfig.r2]) :=
  ⟨by rfl, C8_bp_field_integer defaultConfig w8in w8res (by rfl)⟩

def w9in : String := "Variant\tpvalue\nx_1_y\t0.5"

def w9hl : String := "Variant\tpvalue"

def w9dl : List String := ["x_1_y\t0.5"]

/-- Witness for C9: the header holds `Variant`, differing from the
configured `variant` only in case, and the run aborts. -/
theorem C9_witness :
    (readLines w9in = w9hl :: w9dl ∧
     defaultConfig.variant_col ∉ pySplit w9hl "\t" ∧
     (∃ h ∈ pySplit w9hl "\t", h ≠ defaultConfig.variant_col ∧
       pyLower h = pyLower defaultConfig.variant_col)) ∧
    (main defaultConfig w9in =
        .error ("[ERROR] Variant column not found: " ++ defaultConfig.variant_col) ∧
     writtenFile (main defaultConfig w9in) = none ∧
     detect_pcol ["other", "LRT-PVALUE"] = some "LRT-PVALUE") :=
  ⟨⟨by rfl, by decide, ⟨"Variant", by decide, by decide, by rfl⟩⟩,
   C9_variant_case_sensitive defaultConfig w9in w9hl w9dl (by rfl) (by decide)
     ⟨"Variant", by decide, by decide, by rfl⟩⟩

/-- Witness for C10 at a header with two case-variants of `pvalue`. -/
theorem C10_witness :
    candidates.find?
        (fun cand => (["PValue", "pValue", "x"] : List String).any
          (fun h => pyLower h == cand)) = some "pvalue" ∧
    detect_pcol ["PValue", "pValue", "x"] =
      ((["PValue", "pValue", "x"] : List String).filter
        (fun h => pyLower h == "pvalue")).getLast? :=
  ⟨by rfl, C10_case_collision_order.1 ["PValue", "pValue", "x"] "pvalue" (by rfl)⟩

end PyseerPhandango
